import Mathlib

/-!
Verification of the go-spew structural value walker (`spew` package) against
its natural-language specification.

The development shallowly embeds the dump path of the package:

* `ConfigState` mirrors `config.go` (the `ContinueOnMethod` field is the one
  referenced by `handleMethods`; it is described in the specification's
  configuration record although the `config.go` snapshot does not list it).
* `GoVal` models the fragment of `reflect.Value` shapes the dump walker
  dispatches on; a value's runtime type name is carried as a string, exactly
  the `v.Type().String()` the walker prints.  Pointers are addresses into an
  explicit heap so that cyclic reference graphs are representable.
* `dumpPtrLoop` is the pointer-unwrapping loop of `dumpState.dumpPtr`
  (dump.go lines 63-90), `dumpT` is `dumpState.dump` together with
  `dumpState.dumpPtr`'s rendering tail and the three child-iteration loops,
  and `FdumpStr` is `Fdump` (dump.go lines 285-299).
* Recursion is fuelled: the walker can genuinely diverge on cyclic heaps
  (see claim C1), so every traversal function consumes fuel and returns
  `none` when the fuel runs out.  Fuel is the only source of `none`.

Machine floats and complex numbers are not modelled: no claim touches the
float formatting paths, and their rendering is a leaf call into Go's
`strconv` package.
-/

/-- Configuration record, from `config.go`.  `MaxDepth` is a Go `int`. -/
structure ConfigState where
  MaxDepth : Int
  Indent : String
  DisableMethods : Bool
  DisablePointerMethods : Bool
  ContinueOnMethod : Bool
deriving Repr

/-- The default configuration `ConfigState{Indent: " "}` from `config.go`. -/
def defaultConfig : ConfigState :=
  { MaxDepth := 0, Indent := " ", DisableMethods := false,
    DisablePointerMethods := false, ContinueOnMethod := false }

/-- The fragment of Go runtime values the dump walker dispatches on.  Each
constructor stores the `reflect.Type.String()` of the value.  `sliceV`
covers the `Array` and `Slice` kinds (one switch case in `dump`), `hexV`
covers the `Chan`, `Func` and `UnsafePointer` kinds.  Non-nil pointers are
heap addresses; interfaces are explicit boxes, as seen by `reflect`. -/
inductive GoVal where
  | invalid
  | boolV (ty : String) (b : Bool)
  | intV (ty : String) (n : Int)
  | uintV (ty : String) (n : Nat)
  | stringV (ty : String) (s : String)
  | uintptrV (ty : String) (n : Nat)
  | hexV (ty : String) (addr : Nat)
  | sliceV (ty : String) (elems : List GoVal)
  | mapV (ty : String) (entries : List (GoVal × GoVal))
  | structV (ty : String) (fields : List (String × GoVal))
  | ptrV (ty : String) (addr : Nat)
  | ptrNilV (ty : String)
  | ifaceV (ty : String) (inner : GoVal)
  | ifaceNilV (ty : String)

/-- The `v.Type().String()` of a value. -/
def tyOf : GoVal → String
  | .invalid => "<invalid type>"
  | .boolV ty _ => ty
  | .intV ty _ => ty
  | .uintV ty _ => ty
  | .stringV ty _ => ty
  | .uintptrV ty _ => ty
  | .hexV ty _ => ty
  | .sliceV ty _ => ty
  | .mapV ty _ => ty
  | .structV ty _ => ty
  | .ptrV ty _ => ty
  | .ptrNilV ty => ty
  | .ifaceV ty _ => ty
  | .ifaceNilV ty => ty

/-- Whether `v.Kind() == reflect.Ptr`. -/
def isPtrKind : GoVal → Bool
  | .ptrV _ _ => true
  | .ptrNilV _ => true
  | _ => false

/-- Whether `v.Kind() == reflect.Invalid`. -/
def isInvalidKind : GoVal → Bool
  | .invalid => true
  | _ => false

/-- Whether `v.Kind() == reflect.Interface`. -/
def isIfaceKind : GoVal → Bool
  | .ifaceV _ _ => true
  | .ifaceNilV _ => true
  | _ => false

/-- Modelled from the spec: `unpackValue`, referenced by `dump.go` at each
child visit but missing from the provided sources, unwraps a non-nil
interface box one level so the walker sees the concrete child value. -/
def unpackValue : GoVal → GoVal
  | .ifaceV _ inner => inner
  | v => v

/-- Result of invoking an `Error`/`String` method: the method either returns
a string or panics with a message (the `%v` rendering of the panic value). -/
inductive MethOutcome where
  | ok (s : String)
  | panics (msg : String)

/-- The error/Stringer capabilities of one runtime type, split by whether
the interface lookup is done against a pointer to the value
(`v.Addr().Interface()`) or against the value itself (`v.Interface()`).
`none` means the type does not satisfy the corresponding interface. -/
structure TypeMeths where
  errAsPtr : Option MethOutcome
  strAsPtr : Option MethOutcome
  errAsVal : Option MethOutcome
  strAsVal : Option MethOutcome

/-- A type with no error/Stringer implementation at all. -/
def noMeths : TypeMeths :=
  { errAsPtr := none, strAsPtr := none, errAsVal := none, strAsVal := none }

/-- The runtime surroundings of one traversal: the heap backing non-nil
pointers, and the method sets of the named types, keyed by type string. -/
structure Env where
  heap : List (Nat × GoVal)
  meths : List (String × TypeMeths)

/-- Heap lookup: the value a non-nil pointer address refers to. -/
def heapGet : List (Nat × GoVal) → Nat → Option GoVal
  | [], _ => none
  | (k, v) :: rest, a => if k = a then some v else heapGet rest a

/-- Method-set lookup by type string; types absent from the table have no
error/Stringer implementation. -/
def methsFor : List (String × TypeMeths) → String → TypeMeths
  | [], _ => noMeths
  | (k, m) :: rest, ty => if k = ty then m else methsFor rest ty

/-- Lookup in the `d.pointers` identity map (`map[uintptr]int`). -/
def ptrsLookup : List (Nat × Nat) → Nat → Option Nat
  | [], _ => none
  | (k, d) :: rest, a => if k = a then some d else ptrsLookup rest a

/-- Assignment `d.pointers[addr] = depth` (replacing any previous entry). -/
def ptrsSet (ptrs : List (Nat × Nat)) (addr depth : Nat) : List (Nat × Nat) :=
  (addr, depth) :: ptrs.filter (fun kd => kd.1 ≠ addr)

/-- The deletion loop at the top of `dumpPtr` (dump.go lines 51-55):
remove entries recorded at or below (numerically at or above) the current
depth. -/
def ptrsPrune (ptrs : List (Nat × Nat)) (depth : Nat) : List (Nat × Nat) :=
  ptrs.filter (fun kd => kd.2 < depth)

/-- The mutable state of one dump operation (`dumpState`), with the bytes
written to the `io.Writer` accumulated in `out`. -/
structure DumpState where
  out : String
  depth : Nat
  pointers : List (Nat × Nat)
  ignoreNextType : Bool
  ignoreNextPad : Bool

/-- A write to the underlying `io.Writer`. -/
def emit (st : DumpState) (s : String) : DumpState :=
  { st with out := st.out ++ s }

/-- The assignment to the `pointers` field of `dumpState`. -/
def setPointers (st : DumpState) (p : List (Nat × Nat)) : DumpState :=
  { st with pointers := p }

/-- The assignment to the `ignoreNextType` flag of `dumpState`. -/
def setIgnoreNextType (st : DumpState) (b : Bool) : DumpState :=
  { st with ignoreNextType := b }

/-- The assignment to the `ignoreNextPad` flag of `dumpState`. -/
def setIgnoreNextPad (st : DumpState) (b : Bool) : DumpState :=
  { st with ignoreNextPad := b }

/-- The statement `d.depth++`. -/
def incDepth (st : DumpState) : DumpState := { st with depth := st.depth + 1 }

/-- The statement `d.depth--`. -/
def decDepth (st : DumpState) : DumpState := { st with depth := st.depth - 1 }

/-- `bytes.Repeat` of a string. -/
def strRepeat (s : String) : Nat → String
  | 0 => ""
  | n + 1 => s ++ strRepeat s n

/-- The `pad` method (dump.go lines 39-45): skip one indentation when the
`ignoreNextPad` flag is set, otherwise write `Indent` repeated `depth`
times. -/
def pad (cs : ConfigState) (st : DumpState) : DumpState :=
  if st.ignoreNextPad then setIgnoreNextPad st false
  else emit st (strRepeat cs.Indent st.depth)

/-- A fresh `dumpState` as created per root value in `Fdump`, writing after
the bytes already written (`out`). -/
def initSt (out : String) : DumpState :=
  { out := out, depth := 0, pointers := [], ignoreNextType := false,
    ignoreNextPad := false }

/-- The `printHexPtr` helper (common.go): `<nil>` for a zero address, else
`0x` followed by lowercase hex with no leading zeros. -/
def printHexPtr (p : Nat) : String :=
  if p = 0 then "<nil>" else "0x" ++ String.mk (Nat.toDigits 16 p)

/-- Tail of a pointer chain rendering: each further address preceded by the
`->` separator. -/
def chainRest : List Nat → String
  | [] => ""
  | a :: rest => "->" ++ printHexPtr a ++ chainRest rest

/-- The pointer-chain rendering of `dumpPtr` (dump.go lines 100-105): hex
addresses joined by `->`. -/
def chainStr : List Nat → String
  | [] => ""
  | a :: rest => printHexPtr a ++ chainRest rest

/-- Escape one character the way `strconv.Quote` does (ASCII fragment; all
strings exercised by the claims are printable ASCII). -/
def quoteChar (c : Char) : String :=
  if c = '"' then "\\\""
  else if c = '\\' then "\\\\"
  else if c = Char.ofNat 7 then "\\a"
  else if c = Char.ofNat 8 then "\\b"
  else if c = Char.ofNat 12 then "\\f"
  else if c = '\n' then "\\n"
  else if c = '\r' then "\\r"
  else if c = '\t' then "\\t"
  else if c = Char.ofNat 11 then "\\v"
  else if c.toNat < 32 then
    "\\x" ++ String.mk [Nat.digitChar (c.toNat / 16), Nat.digitChar (c.toNat % 16)]
  else String.singleton c

/-- The `strconv.Quote` call of `dump`'s string case: double quotes around
the escaped characters. -/
def goQuote (s : String) : String :=
  "\"" ++ String.join (s.data.map quoteChar) ++ "\""

/-- Rendering of one method invocation, including the `catchPanic` recovery
(common.go lines 105-113 and 149-175): a panic is rendered as
`(PANIC=message)` and leaves the named return `handled` at `false`; a
successful call is parenthesized as a prefix when `ContinueOnMethod` is set
(`handled = false`) and otherwise becomes the whole rendering
(`handled = true`). -/
def invokeOutcome (cs : ConfigState) : MethOutcome → String × Bool
  | .ok s =>
      if cs.ContinueOnMethod then ("(" ++ s ++ ") ", false) else (s, true)
  | .panics msg => ("(PANIC=" ++ msg ++ ")", false)

/-- The `handleMethods` function (common.go lines 120-177): choose the
pointer or the value method set according to `DisablePointerMethods`, try
the `error` interface first, then `fmt.Stringer`; return the written bytes
and the `handled` flag.  The `unsafeReflectValue` accessibility bypass is
modelled as the capability always being available. -/
def handleMethods (cs : ConfigState) (tm : TypeMeths) : String × Bool :=
  let ifaces := if !cs.DisablePointerMethods then (tm.errAsPtr, tm.strAsPtr)
                else (tm.errAsVal, tm.strAsVal)
  match ifaces.1 with
  | some o => invokeOutcome cs o
  | none =>
      match ifaces.2 with
      | some o => invokeOutcome cs o
      | none => ("", false)

/-- Terminal outcome of the pointer-unwrapping loop. -/
inductive PtrOutcome where
  | nilFound
  | cycleFound
  | normal

/-- Result carried out of the pointer-unwrapping loop: the updated identity
map, the dereferenced pointer chain, the indirection count, the outcome
flag, and the value `ve` the loop stopped at. -/
structure LoopRes where
  pointers : List (Nat × Nat)
  chain : List Nat
  indirects : Nat
  outcome : PtrOutcome
  ve : GoVal

/-- Whether the identity-map check of dump.go line 75 fires: the address is
already recorded and its recorded depth is strictly shallower than the
current depth (`pd < d.depth`). -/
def cycleHit (ptrs : List (Nat × Nat)) (addr depth : Nat) : Bool :=
  match ptrsLookup ptrs addr with
  | some pd => pd < depth
  | none => false

/-- The pointer-unwrapping loop of `dumpPtr` (dump.go lines 63-90),
transcribed one iteration per fuel unit: count an indirection, stop on a
nil pointer, append the address to the chain, stop flagging a cycle when
`cycleHit` fires (undoing the indirection count, as line 77 does),
otherwise record the address at the current depth, dereference
(`ve = ve.Elem()`), unwrap one non-nil interface box found behind the
pointer (stopping if that box is nil), and loop. -/
def dumpPtrLoop (fuel : Nat) (env : Env) (ptrs : List (Nat × Nat))
    (depth : Nat) (chain : List Nat) (indirects : Nat) (ve : GoVal) :
    Option LoopRes :=
  match ve with
  | .ptrNilV ty =>
      some ⟨ptrs, chain, indirects + 1, .nilFound, .ptrNilV ty⟩
  | .ptrV ty addr =>
      match fuel with
      | 0 => none
      | f + 1 =>
          let chain2 := chain ++ [addr]
          if cycleHit ptrs addr depth then
            some ⟨ptrs, chain2, indirects + 1 - 1, .cycleFound, .ptrV ty addr⟩
          else
            let ptrs2 := ptrsSet ptrs addr depth
            match (heapGet env.heap addr).getD .invalid with
            | .ifaceNilV ty2 =>
                some ⟨ptrs2, chain2, indirects + 1, .nilFound, .ifaceNilV ty2⟩
            | .ifaceV _ inner =>
                dumpPtrLoop f env ptrs2 depth chain2 (indirects + 1) inner
            | v2 => dumpPtrLoop f env ptrs2 depth chain2 (indirects + 1) v2
  | v => some ⟨ptrs, chain, indirects, .normal, v⟩

/-- Work items of the dump recursion: rendering one value (`dump`), or one
of the three child-iteration loops of the `Array/Slice`, `Map` and `Struct`
cases of `dump`.  Folding the loops into the same fuelled recursion keeps
every recursive call structural on the fuel. -/
inductive DTask where
  | one (v : GoVal)
  | listItems (xs : List GoVal)
  | mapItems (xs : List (GoVal × GoVal))
  | structItems (xs : List (String × GoVal))

/-- The dump walker: `dumpState.dump` (dump.go lines 128-281) together with
the rendering tail of `dumpState.dumpPtr` (lines 92-122) and the three
child loops.  One fuel unit is consumed per work item; `none` means the
fuel ran out.  The `Float`, `Complex` and fallback cases of the switch are
not modelled (no claim reaches them); every other case is transcribed. -/
def dumpT (fuel : Nat) (env : Env) (cs : ConfigState) (st : DumpState)
    (t : DTask) : Option DumpState :=
  match fuel with
  | 0 => none
  | f + 1 =>
    match t with
    | .one v =>
      if isPtrKind v then
        -- dump lines 129-135: pad, then dumpPtr.
        let st := pad cs st
        let ptrs := ptrsPrune st.pointers st.depth
        (dumpPtrLoop f env ptrs st.depth [] 0 v).bind fun r =>
          let st := setPointers st r.pointers
          -- dumpPtr lines 92-96: type information.
          let st := emit st ("(" ++ strRepeat "*" r.indirects ++ tyOf r.ve ++ ")")
          -- dumpPtr lines 98-106: pointer chain.
          let st := emit st ("(" ++ chainStr r.chain ++ ")")
          -- dumpPtr lines 108-121: the dereferenced value.
          let st := emit st "("
          match r.outcome with
          | .nilFound => some (emit (emit st "<nil>") ")")
          | .cycleFound => some (emit (emit st "<already shown>") ")")
          | .normal =>
            (dumpT f env cs (setIgnoreNextType st true) (.one r.ve)).bind
              fun st => some (emit st ")")
      else
        -- dump lines 137-145: type information unless suppressed.
        let st := if !st.ignoreNextType
          then emit (pad cs st) ("(" ++ tyOf v ++ ") ")
          else st
        let st := setIgnoreNextType st false
        -- dump lines 147-155: error/Stringer interfaces.
        let hm := if !cs.DisableMethods && !isInvalidKind v && !isIfaceKind v
          then handleMethods cs (methsFor env.meths (tyOf v))
          else ("", false)
        let st := emit st hm.1
        if hm.2 then some st else
        match v with
        | .invalid => some (emit st "<invalid>")
        | .boolV _ b => some (emit st (if b then "true" else "false"))
        | .intV _ n => some (emit st (toString n))
        | .uintV _ n => some (emit st (toString n))
        | .stringV _ s => some (emit st (goQuote s))
        | .uintptrV _ n => some (emit st (printHexPtr n))
        | .hexV _ a => some (emit st (printHexPtr a))
        | .ifaceV _ _ => some st
        | .ifaceNilV _ => some st
        | .ptrV _ _ => some st
        | .ptrNilV _ => some st
        | .sliceV _ xs =>
          let st := emit st "\x7b\n"
          let st := incDepth st
          let res := if cs.MaxDepth ≠ 0 ∧ (st.depth : Int) > cs.MaxDepth
            then some (emit (pad cs st) "<max depth reached>\n")
            else dumpT f env cs st (.listItems xs)
          res.bind fun st =>
            let st := decDepth st
            some (emit (pad cs st) "\x7d")
        | .mapV _ es =>
          let st := emit st "\x7b\n"
          let st := incDepth st
          let res := if cs.MaxDepth ≠ 0 ∧ (st.depth : Int) > cs.MaxDepth
            then some (emit (pad cs st) "<max depth reached>\n")
            else dumpT f env cs st (.mapItems es)
          res.bind fun st =>
            let st := decDepth st
            some (emit (pad cs st) "\x7d")
        | .structV _ fs =>
          let st := emit st "\x7b\n"
          let st := incDepth st
          let res := if cs.MaxDepth ≠ 0 ∧ (st.depth : Int) > cs.MaxDepth
            then some (emit (pad cs st) "<max depth reached>\n")
            else dumpT f env cs st (.structItems fs)
          res.bind fun st =>
            let st := decDepth st
            some (emit (pad cs st) "\x7d")
    | .listItems xs =>
      match xs with
      | [] => some st
      | x :: rest =>
        (dumpT f env cs st (.one (unpackValue x))).bind fun st =>
          dumpT f env cs (emit st (if rest.isEmpty then "\n" else ",\n"))
            (.listItems rest)
    | .mapItems es =>
      match es with
      | [] => some st
      | (k, val) :: rest =>
        (dumpT f env cs st (.one (unpackValue k))).bind fun st =>
          let st := emit st ": "
          let st := setIgnoreNextPad st true
          (dumpT f env cs st (.one (unpackValue val))).bind fun st =>
            dumpT f env cs (emit st (if rest.isEmpty then "\n" else ",\n"))
              (.mapItems rest)
    | .structItems fs =>
      match fs with
      | [] => some st
      | (name, val) :: rest =>
        let st := pad cs st
        let st := emit st (name ++ ": ")
        let st := setIgnoreNextPad st true
        (dumpT f env cs st (.one (unpackValue val))).bind fun st =>
          dumpT f env cs (emit st (if rest.isEmpty then "\n" else ",\n"))
            (.structItems rest)

/-- The per-argument loop of `Fdump` (dump.go lines 285-299): a `nil`
argument is rendered directly as the interface and nil tokens plus a
newline without entering the walker; any other argument is dumped from a
fresh `dumpState` and followed by a newline. -/
def fdumpGo (fuel : Nat) (cs : ConfigState) (env : Env) :
    List (Option GoVal) → String → Option String
  | [], out => some out
  | none :: rest, out =>
      fdumpGo fuel cs env rest (out ++ "(interface \x7b\x7d)" ++ "<nil>" ++ "\n")
  | some v :: rest, out =>
      (dumpT fuel env cs (initSt out) (.one v)).bind fun st =>
        fdumpGo fuel cs env rest (st.out ++ "\n")

/-- `Fdump` with the written bytes returned as a string. -/
def FdumpStr (fuel : Nat) (cs : ConfigState) (env : Env)
    (args : List (Option GoVal)) : Option String :=
  fdumpGo fuel cs env args ""

/-- An environment with an empty heap and no method implementations. -/
def emptyEnv : Env := { heap := [], meths := [] }

/-- Extraction `v.Int()` as used by `valuesSorter.Less`; `sortValues` is
only invoked on keys of one common kind (Go panics otherwise), so the
placeholder for other kinds is never exercised. -/
def goValInt : GoVal → Int
  | .intV _ n => n
  | _ => 0

/-- Extraction `v.Uint()` as used by `valuesSorter.Less`. -/
def goValUint : GoVal → Nat
  | .uintV _ n => n
  | .uintptrV _ n => n
  | _ => 0

/-- Extraction `v.Bool()` as used by `valuesSorter.Less`. -/
def goValBool : GoVal → Bool
  | .boolV _ b => b
  | _ => false

/-- The `reflect.Value.String()` method: the string itself for string
kinds, and a generic placeholder mentioning the type for all others. -/
def goValueString : GoVal → String
  | .stringV _ s => s
  | v => "<" ++ tyOf v ++ " Value>"

/-- Lexicographic comparison of character lists by code point, matching
Go's `<` on strings (UTF-8 byte order coincides with code-point order). -/
def charsLt : List Char → List Char → Bool
  | [], [] => false
  | [], _ :: _ => true
  | _ :: _, [] => false
  | a :: as, b :: bs =>
      if a.toNat < b.toNat then true
      else if b.toNat < a.toNat then false
      else charsLt as bs

/-- Go's `<` operator on strings. -/
def goStringLess (s1 s2 : String) : Bool := charsLt s1.data s2.data

/-- The `valuesSorter.Less` comparison (common.go lines 571-587): native
comparison keyed on the first value's kind for bool, signed and unsigned
integers, strings and uintptr, with the textual `Value.String()` comparison
as the fallback. -/
def lessValue (v1 v2 : GoVal) : Bool :=
  match v1 with
  | .boolV _ b => !b && goValBool v2
  | .intV _ n => n < goValInt v2
  | .uintV _ n => n < goValUint v2
  | .stringV _ s => goStringLess s (goValueString v2)
  | .uintptrV _ n => n < goValUint v2
  | _ => goStringLess (goValueString v1) (goValueString v2)

/-- Insertion step of the sort used to model `sort.Sort` on a
`valuesSorter`. -/
def insertLess (x : GoVal) : List GoVal → List GoVal
  | [] => [x]
  | y :: ys => if lessValue x y then x :: y :: ys else y :: insertLess x ys

/-- The `sortValues` function (common.go lines 589-597): sort a slice of
values with `valuesSorter.Less`.  Go's `sort.Sort` is an unstable
introsort; on keys that `Less` orders totally (as in the claims) any
Less-sorted permutation is the same list, so an insertion sort models
it. -/
def sortValues : List GoVal → List GoVal
  | [] => []
  | x :: xs => insertLess x (sortValues xs)

/-- Modelled from the spec: the identity-map check as the specification
words it, firing when the address was already seen at a depth shallower
than or equal to the current one (`pd` at most `depth`), where the code's
`cycleHit` requires strictly shallower. -/
def cycleHitLE (ptrs : List (Nat × Nat)) (addr depth : Nat) : Bool :=
  match ptrsLookup ptrs addr with
  | some pd => pd ≤ depth
  | none => false

/-- Modelled from the spec: the pointer-unwrapping loop as specified,
identical to `dumpPtrLoop` except that the cycle guard is the
shallower-or-equal `cycleHitLE`. -/
def dumpPtrLoopSpecLE (fuel : Nat) (env : Env) (ptrs : List (Nat × Nat))
    (depth : Nat) (chain : List Nat) (indirects : Nat) (ve : GoVal) :
    Option LoopRes :=
  match ve with
  | .ptrNilV ty =>
      some ⟨ptrs, chain, indirects + 1, .nilFound, .ptrNilV ty⟩
  | .ptrV ty addr =>
      match fuel with
      | 0 => none
      | f + 1 =>
          let chain2 := chain ++ [addr]
          if cycleHitLE ptrs addr depth then
            some ⟨ptrs, chain2, indirects + 1 - 1, .cycleFound, .ptrV ty addr⟩
          else
            let ptrs2 := ptrsSet ptrs addr depth
            match (heapGet env.heap addr).getD .invalid with
            | .ifaceNilV ty2 =>
                some ⟨ptrs2, chain2, indirects + 1, .nilFound, .ifaceNilV ty2⟩
            | .ifaceV _ inner =>
                dumpPtrLoopSpecLE f env ptrs2 depth chain2 (indirects + 1) inner
            | v2 => dumpPtrLoopSpecLE f env ptrs2 depth chain2 (indirects + 1) v2
  | v => some ⟨ptrs, chain, indirects, .normal, v⟩

/-- A directly self-referential pointer, as built by Go code of the shape
`type ptrCycle *ptrCycle; var p ptrCycle; p = &p`: the value at address 1
is a pointer to address 1. -/
def ptrCycleVal : GoVal := .ptrV "spew_test.ptrCycle" 1

/-- The heap of the self-referential pointer example. -/
def ptrCycleEnv : Env :=
  { heap := [(1, ptrCycleVal)], meths := [] }

/-- Concatenation of a token list in write order: the byte stream produced
by a sequence of `w.Write` calls. -/
def strConcat (l : List String) : String := l.foldl (fun a b => a ++ b) ""

/-- A state equal to `st` except that the bytes `o` were already in the
writer before `st.out`; used to express that the walker only appends to the
output stream. -/
def withOut (o : String) (st : DumpState) : DumpState :=
  { st with out := o ++ st.out }

/-- The map value of the ordering claims as the runtime may present it:
entries iterated in the order key `b` first, then key `a`. -/
def mapBA : GoVal :=
  .mapV "map[string]int"
    [(.stringV "string" "b", .intV "int" 2), (.stringV "string" "a", .intV "int" 1)]

/-- The same mapping presented in the opposite iteration order. -/
def mapAB : GoVal :=
  .mapV "map[string]int"
    [(.stringV "string" "a", .intV "int" 1), (.stringV "string" "b", .intV "int" 2)]

/-- Projection of a mapping value to its entry list. -/
def mapEntries : GoVal → List (GoVal × GoVal)
  | .mapV _ es => es
  | _ => []

/-- Method table for the example type `spew_test.Flag` of the repository's
example test: an integer-kind type whose Stringer (reachable through a
pointer, hence in the pointer method set) returns `flagTwo`. -/
def flagEnv : Env :=
  { heap := [],
    meths := [("spew_test.Flag",
      { errAsPtr := none, strAsPtr := some (.ok "flagTwo"),
        errAsVal := none, strAsVal := none })] }

/-- Method table for a type whose Stringer always panics with `msg`, like
the panicing stringers of the repository's format tests. -/
def panicerEnv (msg : String) : Env :=
  { heap := [],
    meths := [("spew_test.panicer",
      { errAsPtr := none, strAsPtr := some (.panics msg),
        errAsVal := none, strAsVal := none })] }

/-- A heap holding one `int` cell at the given address. -/
def intHeapEnv (addr : Nat) (n : Int) : Env :=
  { heap := [(addr, .intV "int" n)], meths := [] }

/-- A struct whose two fields are pointers to the same address, the shape
of the sibling-revisit scenario of the identity-map pruning claim. -/
def twoPtrStruct (addr : Nat) : GoVal :=
  .structV "spew_test.twoPtr"
    [("a", .ptrV "*int" addr), ("b", .ptrV "*int" addr)]

/-- A record nested three compound levels deep, for the depth-bound
samples. -/
def nested3 (a b : Int) : GoVal :=
  .structV "spew_test.n1"
    [("f", .structV "spew_test.n2"
      [("g", .structV "spew_test.n3" [("h", .intV "int" a)]), ("k", .intV "int" b)])]

/-- Agreement of two values up to the `MaxDepth` cut `N`, starting at
nesting depth `d`: the values must be identical except inside compound
children that open at a depth exceeding `N`, where they may differ
arbitrarily (the walker replaces those children with the depth-limit
placeholder and never looks at them).  Interface boxes are transparent
(children pass through `unpackValue` before being dumped). -/
inductive AgreeVal (N : Nat) : Nat → GoVal → GoVal → Prop where
  | refl (d : Nat) (v : GoVal) : AgreeVal N d v v
  | iface (d : Nat) (t : String) (x y : GoVal) :
      AgreeVal N d x y → AgreeVal N d (.ifaceV t x) (.ifaceV t y)
  | sliceCut (d : Nat) (t : String) (xs ys : List GoVal) (h : N < d + 1) :
      AgreeVal N d (.sliceV t xs) (.sliceV t ys)
  | sliceCh (d : Nat) (t : String) (xs ys : List GoVal)
      (hlen : xs.length = ys.length)
      (hch : ∀ x y, (x, y) ∈ xs.zip ys → AgreeVal N (d + 1) x y) :
      AgreeVal N d (.sliceV t xs) (.sliceV t ys)
  | mapCut (d : Nat) (t : String) (xs ys : List (GoVal × GoVal)) (h : N < d + 1) :
      AgreeVal N d (.mapV t xs) (.mapV t ys)
  | mapCh (d : Nat) (t : String) (xs ys : List (GoVal × GoVal))
      (hlen : xs.length = ys.length)
      (hk : ∀ p q, (p, q) ∈ xs.zip ys → AgreeVal N (d + 1) p.1 q.1)
      (hv : ∀ p q, (p, q) ∈ xs.zip ys → AgreeVal N (d + 1) p.2 q.2) :
      AgreeVal N d (.mapV t xs) (.mapV t ys)
  | structCut (d : Nat) (t : String) (xs ys : List (String × GoVal)) (h : N < d + 1) :
      AgreeVal N d (.structV t xs) (.structV t ys)
  | structCh (d : Nat) (t : String) (xs ys : List (String × GoVal))
      (hlen : xs.length = ys.length)
      (hn : ∀ p q, (p, q) ∈ xs.zip ys → p.1 = q.1)
      (hv : ∀ p q, (p, q) ∈ xs.zip ys → AgreeVal N (d + 1) p.2 q.2) :
      AgreeVal N d (.structV t xs) (.structV t ys)

/-- Agreement of two work items at depth `d`, extending `AgreeVal` to the
pending child lists. -/
def AgreeTask (N d : Nat) : DTask → DTask → Prop
  | .one v1, .one v2 => AgreeVal N d v1 v2
  | .listItems xs, .listItems ys =>
      xs.length = ys.length ∧ ∀ x y, (x, y) ∈ xs.zip ys → AgreeVal N d x y
  | .mapItems xs, .mapItems ys =>
      xs.length = ys.length ∧
        (∀ p q, (p, q) ∈ xs.zip ys → AgreeVal N d p.1 q.1) ∧
        (∀ p q, (p, q) ∈ xs.zip ys → AgreeVal N d p.2 q.2)
  | .structItems xs, .structItems ys =>
      xs.length = ys.length ∧
        (∀ p q, (p, q) ∈ xs.zip ys → p.1 = q.1) ∧
        (∀ p q, (p, q) ∈ xs.zip ys → AgreeVal N d p.2 q.2)
  | _, _ => False

/-- Associativity of string concatenation (byte streams compose). -/
theorem strAppend_assoc (a b c : String) : a ++ b ++ c = a ++ (b ++ c) :=
  String.ext (by simp)

/-- Appending the empty string writes nothing. -/
@[simp] theorem strAppend_empty (s : String) : s ++ "" = s :=
  String.ext (by simp)

/-- Prepending the empty string writes nothing. -/
@[simp] theorem strEmpty_append (s : String) : "" ++ s = s :=
  String.ext (by simp)

/-- Fusion of `Option.map` into a following `Option.bind`. -/
@[simp] theorem optBindMap {α β γ : Type} (x : Option α) (g : α → β)
    (h : β → Option γ) :
    (x.map g).bind h = x.bind (fun a => h (g a)) := by cases x <;> rfl

/-- Fusion of `Option.map` out of a preceding `Option.bind`. -/
@[simp] theorem optMapBind {α β γ : Type} (x : Option α) (g : β → γ)
    (h : α → Option β) :
    (x.bind h).map g = x.bind (fun a => (h a).map g) := by cases x <;> rfl

/-- Writing bytes leaves the traversal depth unchanged. -/
@[simp] theorem emit_depth (st : DumpState) (s : String) :
    (emit st s).depth = st.depth := rfl

/-- Writing bytes leaves the identity map unchanged. -/
@[simp] theorem emit_pointers (st : DumpState) (s : String) :
    (emit st s).pointers = st.pointers := rfl

/-- Writing bytes leaves the type-suppression flag unchanged. -/
@[simp] theorem emit_ignoreNextType (st : DumpState) (s : String) :
    (emit st s).ignoreNextType = st.ignoreNextType := rfl

/-- Writing bytes leaves the pad-suppression flag unchanged. -/
@[simp] theorem emit_ignoreNextPad (st : DumpState) (s : String) :
    (emit st s).ignoreNextPad = st.ignoreNextPad := rfl

/-- Indentation leaves the traversal depth unchanged. -/
@[simp] theorem pad_depth (cs : ConfigState) (st : DumpState) :
    (pad cs st).depth = st.depth := by
  unfold pad; split <;> rfl

/-- Indentation leaves the identity map unchanged. -/
@[simp] theorem pad_pointers (cs : ConfigState) (st : DumpState) :
    (pad cs st).pointers = st.pointers := by
  unfold pad; split <;> rfl

/-- Indentation leaves the type-suppression flag unchanged. -/
@[simp] theorem pad_ignoreNextType (cs : ConfigState) (st : DumpState) :
    (pad cs st).ignoreNextType = st.ignoreNextType := by
  unfold pad; split <;> rfl

/-- After `pad` the pad-suppression flag is always clear. -/
@[simp] theorem pad_ignoreNextPad (cs : ConfigState) (st : DumpState) :
    (pad cs st).ignoreNextPad = false := by
  unfold pad
  split
  · rfl
  · next h => simpa [emit] using (Bool.not_eq_true _).mp h

/-- Projections of the identity-map assignment. -/
@[simp] theorem setPointers_depth (st p) : (setPointers st p).depth = st.depth := rfl

/-- Projection of the stored identity map. -/
@[simp] theorem setPointers_pointers (st p) : (setPointers st p).pointers = p := rfl

/-- Projections of the identity-map assignment, remaining flags. -/
@[simp] theorem setPointers_ignoreNextType (st p) :
    (setPointers st p).ignoreNextType = st.ignoreNextType := rfl

/-- Projections of the identity-map assignment, pad flag. -/
@[simp] theorem setPointers_ignoreNextPad (st p) :
    (setPointers st p).ignoreNextPad = st.ignoreNextPad := rfl

/-- Projections of the type-suppression assignment. -/
@[simp] theorem setIgnoreNextType_depth (st b) :
    (setIgnoreNextType st b).depth = st.depth := rfl

/-- Projections of the type-suppression assignment, identity map. -/
@[simp] theorem setIgnoreNextType_pointers (st b) :
    (setIgnoreNextType st b).pointers = st.pointers := rfl

/-- Projections of the type-suppression assignment, stored flag. -/
@[simp] theorem setIgnoreNextType_ignoreNextType (st b) :
    (setIgnoreNextType st b).ignoreNextType = b := rfl

/-- Projections of the type-suppression assignment, pad flag. -/
@[simp] theorem setIgnoreNextType_ignoreNextPad (st b) :
    (setIgnoreNextType st b).ignoreNextPad = st.ignoreNextPad := rfl

/-- Projections of the pad-suppression assignment. -/
@[simp] theorem setIgnoreNextPad_depth (st b) :
    (setIgnoreNextPad st b).depth = st.depth := rfl

/-- Projections of the pad-suppression assignment, identity map. -/
@[simp] theorem setIgnoreNextPad_pointers (st b) :
    (setIgnoreNextPad st b).pointers = st.pointers := rfl

/-- Projections of the pad-suppression assignment, type flag. -/
@[simp] theorem setIgnoreNextPad_ignoreNextType (st b) :
    (setIgnoreNextPad st b).ignoreNextType = st.ignoreNextType := rfl

/-- Projections of the pad-suppression assignment, stored flag. -/
@[simp] theorem setIgnoreNextPad_ignoreNextPad (st b) :
    (setIgnoreNextPad st b).ignoreNextPad = b := rfl

/-- The depth increment adds one. -/
@[simp] theorem incDepth_depth (st) : (incDepth st).depth = st.depth + 1 := rfl

/-- The depth increment leaves the identity map unchanged. -/
@[simp] theorem incDepth_pointers (st) : (incDepth st).pointers = st.pointers := rfl

/-- The depth increment leaves the type flag unchanged. -/
@[simp] theorem incDepth_ignoreNextType (st) :
    (incDepth st).ignoreNextType = st.ignoreNextType := rfl

/-- The depth increment leaves the pad flag unchanged. -/
@[simp] theorem incDepth_ignoreNextPad (st) :
    (incDepth st).ignoreNextPad = st.ignoreNextPad := rfl

/-- The depth decrement subtracts one. -/
@[simp] theorem decDepth_depth (st) : (decDepth st).depth = st.depth - 1 := rfl

/-- The walker always restores `d.depth`: every `d.depth++` is matched by a
`d.depth--` before the work item returns. -/
theorem dumpT_depth :
    ∀ f env cs st t r, dumpT f env cs st t = some r → r.depth = st.depth := by
  intro f
  induction f with
  | zero =>
      intro env cs st t r h
      exact absurd h (by simp [dumpT])
  | succ f ih =>
      intro env cs st t r h
      rw [dumpT.eq_def] at h
      cases t with
      | one v =>
          cases v <;>
            simp only [isPtrKind, isInvalidKind, isIfaceKind, Bool.false_eq_true,
              if_true, if_false, ite_true, ite_false, reduceIte] at h
          case ptrV ty addr =>
            rw [Option.bind_eq_some] at h
            obtain ⟨a, _, h⟩ := h
            split at h
            · cases h; simp
            · cases h; simp
            · rw [Option.bind_eq_some] at h
              obtain ⟨b, hb, h⟩ := h
              cases h
              have := ih _ _ _ _ _ hb
              simpa using this
          case ptrNilV ty =>
            rw [Option.bind_eq_some] at h
            obtain ⟨a, _, h⟩ := h
            split at h
            · cases h; simp
            · cases h; simp
            · rw [Option.bind_eq_some] at h
              obtain ⟨b, hb, h⟩ := h
              cases h
              have := ih _ _ _ _ _ hb
              simpa using this
          all_goals
            (repeat' split at h) <;>
              first
                | (cases h; simp [apply_ite, ite_self])
                | (rw [Option.bind_eq_some] at h
                   obtain ⟨a, ha, h⟩ := h
                   cases h
                   cases ha
                   simp [apply_ite, ite_self])
                | (rw [Option.bind_eq_some] at h
                   obtain ⟨a, ha, h⟩ := h
                   cases h
                   have ha2 := ih _ _ _ _ _ ha
                   simp [apply_ite, ite_self] at ha2 ⊢
                   omega)
      | listItems xs =>
          cases xs with
          | nil => cases h; rfl
          | cons x rest =>
              rw [Option.bind_eq_some] at h
              obtain ⟨a, ha, h⟩ := h
              have h1 := ih _ _ _ _ _ ha
              have h2 := ih _ _ _ _ _ h
              simp at h2
              omega
      | mapItems xs =>
          cases xs with
          | nil => cases h; rfl
          | cons p rest =>
              obtain ⟨k, val⟩ := p
              rw [Option.bind_eq_some] at h
              obtain ⟨a, ha, h⟩ := h
              rw [Option.bind_eq_some] at h
              obtain ⟨b, hb, h⟩ := h
              have h1 := ih _ _ _ _ _ ha
              have h2 := ih _ _ _ _ _ hb
              have h3 := ih _ _ _ _ _ h
              simp at h2 h3
              omega
      | structItems xs =>
          cases xs with
          | nil => cases h; rfl
          | cons p rest =>
              obtain ⟨name, val⟩ := p
              rw [Option.bind_eq_some] at h
              obtain ⟨a, ha, h⟩ := h
              have h1 := ih _ _ _ _ _ ha
              have h2 := ih _ _ _ _ _ h
              simp at h1 h2
              omega

/-- `depth` of a branch on two states. -/
theorem depth_ite (c : Prop) [Decidable c] (a b : DumpState) :
    (if c then a else b).depth = if c then a.depth else b.depth := by
  split <;> rfl

/-- `unpackValue` preserves agreement: an interface box is transparent and
every other value is returned unchanged. -/
theorem AgreeVal.unpack {N d : Nat} {x y : GoVal} (h : AgreeVal N d x y) :
    AgreeVal N d (unpackValue x) (unpackValue y) := by
  cases h with
  | refl => exact .refl _ _
  | iface d t x y hxy => exact hxy
  | sliceCut d t xs ys h => exact .sliceCut d t xs ys h
  | sliceCh d t xs ys hlen hch => exact .sliceCh d t xs ys hlen hch
  | mapCut d t xs ys h => exact .mapCut d t xs ys h
  | mapCh d t xs ys hlen hk hv => exact .mapCh d t xs ys hlen hk hv
  | structCut d t xs ys h => exact .structCut d t xs ys h
  | structCh d t xs ys hlen hn hv => exact .structCh d t xs ys hlen hn hv

/-- One step of the `Array/Slice` child loop. -/
theorem dumpT_listCons (f : Nat) (env : Env) (cs : ConfigState) (st : DumpState)
    (x : GoVal) (rest : List GoVal) :
    dumpT (f + 1) env cs st (.listItems (x :: rest)) =
      (dumpT f env cs st (.one (unpackValue x))).bind fun st =>
        dumpT f env cs (emit st (if rest.isEmpty then "\n" else ",\n"))
          (.listItems rest) := rfl

/-- One step of the `Map` child loop. -/
theorem dumpT_mapCons (f : Nat) (env : Env) (cs : ConfigState) (st : DumpState)
    (k val : GoVal) (rest : List (GoVal × GoVal)) :
    dumpT (f + 1) env cs st (.mapItems ((k, val) :: rest)) =
      (dumpT f env cs st (.one (unpackValue k))).bind fun st =>
        (dumpT f env cs (setIgnoreNextPad (emit st ": ") true)
            (.one (unpackValue val))).bind fun st =>
          dumpT f env cs (emit st (if rest.isEmpty then "\n" else ",\n"))
            (.mapItems rest) := rfl

/-- One step of the `Struct` child loop. -/
theorem dumpT_structCons (f : Nat) (env : Env) (cs : ConfigState) (st : DumpState)
    (name : String) (val : GoVal) (rest : List (String × GoVal)) :
    dumpT (f + 1) env cs st (.structItems ((name, val) :: rest)) =
      (dumpT f env cs (setIgnoreNextPad (emit (pad cs st) (name ++ ": ")) true)
          (.one (unpackValue val))).bind fun st =>
        dumpT f env cs (emit st (if rest.isEmpty then "\n" else ",\n"))
          (.structItems rest) := rfl

/-- The depth-limit cut: with `MaxDepth = N` nonzero, the walker's result is
the same for any two work items that agree up to the cut, because children
opening beyond depth `N` are replaced by the placeholder and never read. -/
theorem dumpT_agree (N : Nat) (hN : N ≠ 0) :
    ∀ f env cs st t1 t2, cs.MaxDepth = (N : Int) →
      AgreeTask N st.depth t1 t2 →
      dumpT f env cs st t1 = dumpT f env cs st t2 := by
  intro f
  induction f with
  | zero => intro env cs st t1 t2 _ _; rfl
  | succ f ih =>
      intro env cs st t1 t2 hMD hag
      have hiff : ∀ m : Nat,
          (cs.MaxDepth ≠ 0 ∧ cs.MaxDepth < (m : Int) + 1) ↔ N < m + 1 := by
        intro m
        rw [hMD]
        constructor
        · rintro ⟨-, h2⟩
          exact_mod_cast h2
        · intro h
          exact ⟨by exact_mod_cast hN, by exact_mod_cast h⟩
      cases t1 with
      | one v1 =>
          cases t2 with
          | listItems ys => exact False.elim hag
          | mapItems ys => exact False.elim hag
          | structItems ys => exact False.elim hag
          | one v2 =>
              have hv : AgreeVal N st.depth v1 v2 := hag
              generalize hD : st.depth = D at hv
              cases hv with
              | refl d v => rfl
              | iface d t x y hxy => rfl
              | sliceCut d t xs ys hcut =>
                  subst hD
                  conv_lhs => rw [dumpT.eq_def]
                  conv_rhs => rw [dumpT.eq_def]
                  simp [isPtrKind, isInvalidKind, isIfaceKind, tyOf, hiff, hcut, depth_ite, ite_self, gt_iff_lt]
              | sliceCh d t xs ys hlen hch =>
                  subst hD
                  have key : ∀ st' : DumpState, st'.depth = st.depth + 1 →
                      dumpT f env cs st' (DTask.listItems xs) =
                        dumpT f env cs st' (DTask.listItems ys) := by
                    intro st' hd
                    refine ih env cs st' _ _ hMD ?_
                    rw [hd]
                    exact ⟨hlen, hch⟩
                  by_cases hcut : N < st.depth + 1
                  · conv_lhs => rw [dumpT.eq_def]
                    conv_rhs => rw [dumpT.eq_def]
                    simp [isPtrKind, isInvalidKind, isIfaceKind, tyOf, hiff, hcut, depth_ite, ite_self, gt_iff_lt]
                  · conv_lhs => rw [dumpT.eq_def]
                    conv_rhs => rw [dumpT.eq_def]
                    simp [isPtrKind, isInvalidKind, isIfaceKind, tyOf, hiff, hcut, depth_ite, ite_self, gt_iff_lt, key]
              | mapCut d t xs ys hcut =>
                  subst hD
                  conv_lhs => rw [dumpT.eq_def]
                  conv_rhs => rw [dumpT.eq_def]
                  simp [isPtrKind, isInvalidKind, isIfaceKind, tyOf, hiff, hcut, depth_ite, ite_self, gt_iff_lt]
              | mapCh d t xs ys hlen hk hvv =>
                  subst hD
                  have key : ∀ st' : DumpState, st'.depth = st.depth + 1 →
                      dumpT f env cs st' (DTask.mapItems xs) =
                        dumpT f env cs st' (DTask.mapItems ys) := by
                    intro st' hd
                    refine ih env cs st' _ _ hMD ?_
                    rw [hd]
                    exact ⟨hlen, hk, hvv⟩
                  by_cases hcut : N < st.depth + 1
                  · conv_lhs => rw [dumpT.eq_def]
                    conv_rhs => rw [dumpT.eq_def]
                    simp [isPtrKind, isInvalidKind, isIfaceKind, tyOf, hiff, hcut, depth_ite, ite_self, gt_iff_lt]
                  · conv_lhs => rw [dumpT.eq_def]
                    conv_rhs => rw [dumpT.eq_def]
                    simp [isPtrKind, isInvalidKind, isIfaceKind, tyOf, hiff, hcut, depth_ite, ite_self, gt_iff_lt, key]
              | structCut d t xs ys hcut =>
                  subst hD
                  conv_lhs => rw [dumpT.eq_def]
                  conv_rhs => rw [dumpT.eq_def]
                  simp [isPtrKind, isInvalidKind, isIfaceKind, tyOf, hiff, hcut, depth_ite, ite_self, gt_iff_lt]
              | structCh d t xs ys hlen hn hvv =>
                  subst hD
                  have key : ∀ st' : DumpState, st'.depth = st.depth + 1 →
                      dumpT f env cs st' (DTask.structItems xs) =
                        dumpT f env cs st' (DTask.structItems ys) := by
                    intro st' hd
                    refine ih env cs st' _ _ hMD ?_
                    rw [hd]
                    exact ⟨hlen, hn, hvv⟩
                  by_cases hcut : N < st.depth + 1
                  · conv_lhs => rw [dumpT.eq_def]
                    conv_rhs => rw [dumpT.eq_def]
                    simp [isPtrKind, isInvalidKind, isIfaceKind, tyOf, hiff, hcut, depth_ite, ite_self, gt_iff_lt]
                  · conv_lhs => rw [dumpT.eq_def]
                    conv_rhs => rw [dumpT.eq_def]
                    simp [isPtrKind, isInvalidKind, isIfaceKind, tyOf, hiff, hcut, depth_ite, ite_self, gt_iff_lt, key]
      | listItems xs =>
          cases t2 with
          | one v => exact False.elim hag
          | mapItems ys => exact False.elim hag
          | structItems ys => exact False.elim hag
          | listItems ys =>
              obtain ⟨hlen, hch⟩ := hag
              cases xs with
              | nil =>
                  cases ys with
                  | nil => rfl
                  | cons y ys' => simp at hlen
              | cons x xs' =>
                  cases ys with
                  | nil => simp at hlen
                  | cons y ys' =>
                      rw [dumpT_listCons, dumpT_listCons]
                      have h1 : dumpT f env cs st (.one (unpackValue x)) =
                          dumpT f env cs st (.one (unpackValue y)) :=
                        ih env cs st _ _ hMD (AgreeVal.unpack (hch x y (by simp)))
                      rw [h1]
                      cases hE : dumpT f env cs st (.one (unpackValue y)) with
                      | none => rfl
                      | some st1 =>
                          simp only [Option.some_bind]
                          have hd1 : st1.depth = st.depth :=
                            dumpT_depth f env cs st _ st1 hE
                          have hemp : xs'.isEmpty = ys'.isEmpty := by
                            cases xs' <;> cases ys' <;> simp_all
                          rw [hemp]
                          refine ih env cs _ _ _ hMD ?_
                          simp only [emit_depth, hd1]
                          exact ⟨by simpa using hlen,
                            fun a b hab => hch a b (by simp [hab])⟩
      | mapItems xs =>
          cases t2 with
          | one v => exact False.elim hag
          | listItems ys => exact False.elim hag
          | structItems ys => exact False.elim hag
          | mapItems ys =>
              obtain ⟨hlen, hk, hvv⟩ := hag
              cases xs with
              | nil =>
                  cases ys with
                  | nil => rfl
                  | cons y ys' => simp at hlen
              | cons x xs' =>
                  cases ys with
                  | nil => simp at hlen
                  | cons y ys' =>
                      obtain ⟨xk, xv⟩ := x
                      obtain ⟨yk, yv⟩ := y
                      rw [dumpT_mapCons, dumpT_mapCons]
                      have h1 : dumpT f env cs st (.one (unpackValue xk)) =
                          dumpT f env cs st (.one (unpackValue yk)) :=
                        ih env cs st _ _ hMD
                          (AgreeVal.unpack (hk (xk, xv) (yk, yv) (by simp)))
                      rw [h1]
                      cases hE : dumpT f env cs st (.one (unpackValue yk)) with
                      | none => rfl
                      | some st1 =>
                          simp only [Option.some_bind]
                          have hd1 : st1.depth = st.depth :=
                            dumpT_depth f env cs st _ st1 hE
                          have h2 : dumpT f env cs
                                (setIgnoreNextPad (emit st1 ": ") true)
                                (.one (unpackValue xv)) =
                              dumpT f env cs
                                (setIgnoreNextPad (emit st1 ": ") true)
                                (.one (unpackValue yv)) := by
                            refine ih env cs _ _ _ hMD ?_
                            simp only [setIgnoreNextPad_depth, emit_depth, hd1]
                            exact AgreeVal.unpack (hvv (xk, xv) (yk, yv) (by simp))
                          rw [h2]
                          cases hE2 : dumpT f env cs
                              (setIgnoreNextPad (emit st1 ": ") true)
                              (.one (unpackValue yv)) with
                          | none => rfl
                          | some st2 =>
                              simp only [Option.some_bind]
                              have hd2 : st2.depth = st.depth := by
                                have h3 := dumpT_depth f env cs _ _ st2 hE2
                                simpa [hd1] using h3
                              have hemp : xs'.isEmpty = ys'.isEmpty := by
                                cases xs' <;> cases ys' <;> simp_all
                              rw [hemp]
                              refine ih env cs _ _ _ hMD ?_
                              simp only [emit_depth, hd2]
                              exact ⟨by simpa using hlen,
                                fun p q hpq => hk p q (by simp [hpq]),
                                fun p q hpq => hvv p q (by simp [hpq])⟩
      | structItems xs =>
          cases t2 with
          | one v => exact False.elim hag
          | listItems ys => exact False.elim hag
          | mapItems ys => exact False.elim hag
          | structItems ys =>
              obtain ⟨hlen, hn, hvv⟩ := hag
              cases xs with
              | nil =>
                  cases ys with
                  | nil => rfl
                  | cons y ys' => simp at hlen
              | cons x xs' =>
                  cases ys with
                  | nil => simp at hlen
                  | cons y ys' =>
                      obtain ⟨xn, xv⟩ := x
                      obtain ⟨yn, yv⟩ := y
                      have hname : xn = yn := hn (xn, xv) (yn, yv) (by simp)
                      subst hname
                      rw [dumpT_structCons, dumpT_structCons]
                      have h1 : dumpT f env cs
                            (setIgnoreNextPad (emit (pad cs st) (xn ++ ": ")) true)
                            (.one (unpackValue xv)) =
                          dumpT f env cs
                            (setIgnoreNextPad (emit (pad cs st) (xn ++ ": ")) true)
                            (.one (unpackValue yv)) := by
                        refine ih env cs _ _ _ hMD ?_
                        simp only [setIgnoreNextPad_depth, emit_depth, pad_depth]
                        exact AgreeVal.unpack (hvv (xn, xv) (xn, yv) (by simp))
                      rw [h1]
                      cases hE : dumpT f env cs
                          (setIgnoreNextPad (emit (pad cs st) (xn ++ ": ")) true)
                          (.one (unpackValue yv)) with
                      | none => rfl
                      | some st1 =>
                          simp only [Option.some_bind]
                          have hd1 : st1.depth = st.depth := by
                            have h3 := dumpT_depth f env cs _ _ st1 hE
                            simpa using h3
                          have hemp : xs'.isEmpty = ys'.isEmpty := by
                            cases xs' <;> cases ys' <;> simp_all
                          rw [hemp]
                          refine ih env cs _ _ _ hMD ?_
                          simp only [emit_depth, hd1]
                          exact ⟨by simpa using hlen,
                            fun p q hpq => hn p q (by simp [hpq]),
                            fun p q hpq => hvv p q (by simp [hpq])⟩

/-- `withOut` changes no field but the written bytes. -/
@[simp] theorem withOut_depth (o st) : (withOut o st).depth = st.depth := rfl

@[simp] theorem withOut_pointers (o st) : (withOut o st).pointers = st.pointers := rfl

@[simp] theorem withOut_ignoreNextType (o st) :
    (withOut o st).ignoreNextType = st.ignoreNextType := rfl

@[simp] theorem withOut_ignoreNextPad (o st) :
    (withOut o st).ignoreNextPad = st.ignoreNextPad := rfl

/-- A write commutes with a pre-existing prefix of the output stream. -/
@[simp] theorem emit_withOut (o st s) :
    emit (withOut o st) s = withOut o (emit st s) := by
  simp [emit, withOut, strAppend_assoc]

/-- Padding commutes with a pre-existing prefix of the output stream. -/
@[simp] theorem pad_withOut (o : String) (cs : ConfigState) (st : DumpState) :
    pad cs (withOut o st) = withOut o (pad cs st) := by
  unfold pad
  by_cases hp : st.ignoreNextPad <;>
    simp [hp, withOut, emit, setIgnoreNextPad, strAppend_assoc]

@[simp] theorem setPointers_withOut (o st p) :
    setPointers (withOut o st) p = withOut o (setPointers st p) := rfl

@[simp] theorem setIgnoreNextType_withOut (o st b) :
    setIgnoreNextType (withOut o st) b = withOut o (setIgnoreNextType st b) := rfl

@[simp] theorem setIgnoreNextPad_withOut (o st b) :
    setIgnoreNextPad (withOut o st) b = withOut o (setIgnoreNextPad st b) := rfl

@[simp] theorem incDepth_withOut (o st) :
    incDepth (withOut o st) = withOut o (incDepth st) := rfl

@[simp] theorem decDepth_withOut (o st) :
    decDepth (withOut o st) = withOut o (decDepth st) := rfl

/-- Distributing the prefix map over a branch. -/
theorem optMap_ite (o : String) (c : Prop) [inst : Decidable c] (x y : Option DumpState) :
    Option.map (withOut o) (if c then x else y) =
      if c then Option.map (withOut o) x else Option.map (withOut o) y := by
  split <;> rfl

/-- Distributing a bind over a branch. -/
theorem optBind_ite (c : Prop) [inst : Decidable c] (x y : Option DumpState)
    (k : DumpState → Option DumpState) :
    (if c then x else y).bind k = if c then x.bind k else y.bind k := by
  split <;> rfl

set_option maxRecDepth 4000 in
/-- The walker only appends to the writer: running it after bytes `o` were
already written produces the same result with `o` in front. -/
theorem dumpT_withOut (o : String) :
    ∀ f env cs st t, dumpT f env cs (withOut o st) t =
      (dumpT f env cs st t).map (withOut o) := by
  intro f
  induction f with
  | zero => intro env cs st t; rfl
  | succ f ih =>
      intro env cs st t
      rw [dumpT.eq_def, dumpT.eq_def]
      cases t with
      | one v =>
          cases v <;> by_cases hT : st.ignoreNextType = true <;>
            simp [isPtrKind, hT, ih, optMap_ite, optBind_ite] <;>
            (refine congrArg _ ?_
             funext a
             cases ho : a.outcome <;> simp [ih])
      | listItems xs =>
          cases xs with
          | nil => rfl
          | cons x rest => simp [ih]
      | mapItems xs =>
          cases xs with
          | nil => rfl
          | cons p rest => cases p; simp [ih]
      | structItems xs =>
          cases xs with
          | nil => rfl
          | cons p rest => cases p; simp [ih]

/-- At depth 0 the identity-map check of dump.go line 75 can never fire:
`pd < 0` has no solution. -/
theorem cycleHit_depth_zero (ptrs : List (Nat × Nat)) (a : Nat) :
    cycleHit ptrs a 0 = false := by
  unfold cycleHit
  cases ptrsLookup ptrs a <;> simp

/-- The unwrapping loop never leaves a self-referential pointer at depth 0:
the entry recorded for the address is at depth 0, the check requires a
strictly smaller recorded depth, so every revisit re-enters and the loop
consumes any amount of fuel. -/
theorem dumpPtrLoop_self_none (f : Nat) : ∀ ptrs chain ind,
    dumpPtrLoop f ptrCycleEnv ptrs 0 chain ind ptrCycleVal = none := by
  induction f with
  | zero => intro ptrs chain ind; rfl
  | succ f ih =>
      intro ptrs chain ind
      show dumpPtrLoop (f + 1) ptrCycleEnv ptrs 0 chain ind
        (.ptrV "spew_test.ptrCycle" 1) = none
      rw [dumpPtrLoop]
      simp only [cycleHit_depth_zero, if_false]
      exact ih _ _ _

/-- The unwrapping loop never reads the method table. -/
theorem dumpPtrLoop_meths (f : Nat) : ∀ (h : List (Nat × GoVal)) m1 m2 p d c i ve,
    dumpPtrLoop f ⟨h, m1⟩ p d c i ve = dumpPtrLoop f ⟨h, m2⟩ p d c i ve := by
  induction f with
  | zero => intro h m1 m2 p d c i ve; cases ve <;> rfl
  | succ f ih =>
      intro h m1 m2 p d c i ve
      cases ve <;> try rfl
      rename_i ty addr
      rw [dumpPtrLoop, dumpPtrLoop]
      simp only
      split
      · rfl
      · cases hval : (heapGet h addr).getD .invalid <;> simp only [hval] <;>
          first
            | rfl
            | exact ih _ _ _ _ _ _ _ _

/-- With `DisableMethods` set the walker never reads the method table:
`handleMethods` is gated off for every value. -/
theorem dumpT_disableMethods (cs : ConfigState) (hcs : cs.DisableMethods = true)
    (h : List (Nat × GoVal)) (m1 m2 : List (String × TypeMeths)) :
    ∀ f st t, dumpT f ⟨h, m1⟩ cs st t = dumpT f ⟨h, m2⟩ cs st t := by
  intro f
  induction f with
  | zero => intro st t; rfl
  | succ f ih =>
      intro st t
      rw [dumpT.eq_def, dumpT.eq_def]
      cases t with
      | one v =>
          cases v <;>
            simp only [hcs, isPtrKind, Bool.not_true, Bool.false_and, if_true, if_false,
              Bool.false_eq_true, ite_true, ite_false, dumpPtrLoop_meths f h m1 m2, ih]
      | listItems xs =>
          cases xs with
          | nil => rfl
          | cons x rest => simp only [ih]
      | mapItems xs =>
          cases xs with
          | nil => rfl
          | cons p rest => cases p; simp only [ih]
      | structItems xs =>
          cases xs with
          | nil => rfl
          | cons p rest => cases p; simp only [ih]

/-- Rendering of a `*int` struct field at depth 1 whose identity-map entries
at or below depth 1 prune away: the full chain, address and dereferenced
value are printed (dumpPtr does not flag a cycle). -/
theorem ptrFieldDump (k : Nat) (stO : String) (p2 : List (Nat × Nat)) (addr : Nat)
    (n : Int) (hpr : ptrsPrune p2 1 = []) :
    dumpT (k + 2) (intHeapEnv addr n) defaultConfig
      ⟨stO, 1, p2, false, true⟩ (.one (.ptrV "*int" addr)) =
      some ⟨stO ++ "(*int)" ++ ("(" ++ printHexPtr addr ++ ")") ++ "(" ++ toString n
        ++ ")", 1, [(addr, 1)], false, false⟩ := by
  simp [dumpT, dumpPtrLoop, cycleHit, ptrsLookup, ptrsSet, hpr, heapGet, intHeapEnv,
    pad, emit, strRepeat, unpackValue, tyOf, isPtrKind, isInvalidKind, isIfaceKind,
    handleMethods, methsFor, noMeths, defaultConfig, chainStr, chainRest,
    setPointers, setIgnoreNextType, setIgnoreNextPad, incDepth, decDepth]

/-- A fresh `dumpState` over a writer that already holds `o`. -/
theorem initSt_withOut (o : String) : initSt o = withOut o (initSt "") := by
  simp [initSt, withOut]

/-- C6: rendering the same presented value twice through `Fdump` yields the
same bytes twice: the walker is a function of the (value, configuration)
pair as presented, so the second root value repeats the first's rendering
byte for byte. -/
theorem C6_repeat_render (f : Nat) (cs : ConfigState) (env : Env) (v : GoVal)
    (S : String) (h : FdumpStr f cs env [some v] = some S) :
    FdumpStr f cs env [some v, some v] = some (S ++ S) := by
  simp only [FdumpStr, fdumpGo] at h ⊢
  cases hE : dumpT f env cs (initSt "") (.one v) with
  | none => rw [hE] at h; simp at h
  | some st0 =>
      rw [hE] at h
      simp only [Option.some_bind] at h ⊢
      cases h
      rw [initSt_withOut, dumpT_withOut, hE]
      simp [withOut, strAppend_assoc]

/-- The two depth-bound samples agree up to the `MaxDepth = 1` cut: they
differ only inside the record that opens at depth 2. -/
theorem agree_nested3 : AgreeVal 1 0 (nested3 5 7) (nested3 6 8) := by
  refine .structCh 0 "spew_test.n1" _ _ rfl ?_ ?_
  · intro p q hpq
    simp [nested3] at hpq
    obtain ⟨hp, hq⟩ := hpq
    subst hp
    subst hq
    rfl
  · intro p q hpq
    simp [nested3] at hpq
    obtain ⟨hp, hq⟩ := hpq
    subst hp
    subst hq
    exact .structCut 1 "spew_test.n2" _ _ (by decide)

set_option maxRecDepth 20000 in
set_option maxHeartbeats 2000000 in
/-- C2: the `Map` case of `dump` renders the entries in the iteration order
in which the runtime presents them, two string-keyed entries here; no
reordering happens on the way to the writer. -/
theorem C2_iteration_order (k1 k2 : String) (n1 n2 : Int) :
    FdumpStr 12 defaultConfig emptyEnv
      [some (.mapV "map[string]int"
        [(.stringV "string" k1, .intV "int" n1), (.stringV "string" k2, .intV "int" n2)])] =
    some (strConcat ["(map[string]int) ", "\x7b\n", " ", "(string) ", goQuote k1, ": ",
      "(int) ", toString n1, ",\n", " ", "(string) ", goQuote k2, ": ", "(int) ",
      toString n2, "\n", "\x7d", "\n"]) := by
  simp [FdumpStr, fdumpGo, dumpT, initSt, pad, emit, strRepeat, unpackValue, tyOf,
    isPtrKind, isInvalidKind, isIfaceKind, handleMethods, methsFor, noMeths, emptyEnv,
    defaultConfig, ptrsPrune, strConcat, setPointers, setIgnoreNextType,
    setIgnoreNextPad, incDepth, decDepth]

/-- C5: a panicking `String` method is caught by the guard's recovery
handler and rendered in place as `(PANIC=<message>)`; the walker continues,
the panicking field's value and the sibling field render normally, and the
whole dump returns a value for every fuel. -/
theorem C5_panic_contained (f : Nat) (msg : String) (n m : Int) :
    FdumpStr (f + 16) defaultConfig (panicerEnv msg)
      [some (.structV "spew_test.s"
        [("p", .intV "spew_test.panicer" n), ("q", .intV "int" m)])] =
    some (strConcat ["(spew_test.s) ", "\x7b\n", " ", "p: ", "(spew_test.panicer) ",
      "(PANIC=" ++ msg ++ ")", toString n, ",\n", " ", "q: ", "(int) ", toString m,
      "\n", "\x7d", "\n"]) := by
  simp [FdumpStr, fdumpGo, dumpT, initSt, pad, emit, strRepeat, unpackValue, tyOf,
    isPtrKind, isInvalidKind, isIfaceKind, handleMethods, methsFor, noMeths,
    invokeOutcome, panicerEnv, defaultConfig, strConcat, strAppend_assoc, ptrsPrune,
    setPointers, setIgnoreNextType, setIgnoreNextPad, incDepth, decDepth]

/-- C1: the dump walker does not terminate on a directly self-referential
pointer: for every fuel bound the traversal runs out of fuel, because the
identity-map check of dump.go line 75 requires a strictly shallower
recorded depth and a self-pointer is always revisited at an equal one. -/
theorem C1_self_pointer_diverges (fuel : Nat) :
    dumpT fuel ptrCycleEnv defaultConfig (initSt "") (.one ptrCycleVal) = none := by
  cases fuel with
  | zero => rfl
  | succ f =>
      rw [dumpT]
      simp only [ptrCycleVal, isPtrKind, if_true]
      rw [show pad defaultConfig (initSt "") = initSt "" from rfl]
      simp only [initSt, ptrsPrune, List.filter_nil]
      rw [show GoVal.ptrV "spew_test.ptrCycle" 1 = ptrCycleVal from rfl,
        dumpPtrLoop_self_none f]
      rfl

/-- C3: an address already recorded at a depth equal to the current one is
re-entered, not flagged: the code's strict `pd < d.depth` check loops
forever on a self-pointer, while the spec's shallower-or-equal rule stops
after one revisit and flags the cycle. -/
theorem C3_equal_depth_revisit :
    (∀ fuel chain ind,
      dumpPtrLoop fuel ptrCycleEnv [(1, 0)] 0 chain ind ptrCycleVal = none) ∧
    dumpPtrLoopSpecLE 3 ptrCycleEnv [(1, 0)] 0 [1] 1 ptrCycleVal =
      some ⟨[(1, 0)], [1, 1], 1, .cycleFound, ptrCycleVal⟩ :=
  ⟨fun fuel chain ind => dumpPtrLoop_self_none fuel _ chain ind, rfl⟩

/-- C4: with a nonzero `MaxDepth = N` no compound value is expanded beyond
nesting level `N`: the output is unchanged under arbitrary replacement of
the children that open beyond the bound, however deeply nested the input
is, and at the level where the bound is exceeded the `<max depth reached>`
placeholder is emitted instead of the children. -/
theorem C4_maxdepth_independence (N : Nat) (hN : N ≠ 0) (f : Nat) (env : Env)
    (cs : ConfigState) (hMD : cs.MaxDepth = (N : Int)) (v1 v2 : GoVal)
    (h : AgreeVal N 0 v1 v2) :
    FdumpStr f cs env [some v1] = FdumpStr f cs env [some v2] ∧
    FdumpStr 8 { defaultConfig with MaxDepth := 1 } emptyEnv [some (nested3 5 7)] =
      some "(spew_test.n1) \x7b\n f: (spew_test.n2) \x7b\n  <max depth reached>\n \x7d\n\x7d\n" := by
  constructor
  · have key := dumpT_agree N hN f env cs (initSt "") (.one v1) (.one v2) hMD h
    simp only [FdumpStr, fdumpGo, key]
  · rfl

/-- Witness for the depth-bound theorem at `N = 1` on the three-level
record samples. -/
theorem C4_maxdepth_independence_witness :
    (1 : Nat) ≠ 0 ∧
    ({ defaultConfig with MaxDepth := 1 } : ConfigState).MaxDepth = ((1 : Nat) : Int) ∧
    AgreeVal 1 0 (nested3 5 7) (nested3 6 8) ∧
    FdumpStr 8 { defaultConfig with MaxDepth := 1 } emptyEnv [some (nested3 5 7)] =
      FdumpStr 8 { defaultConfig with MaxDepth := 1 } emptyEnv [some (nested3 6 8)] :=
  ⟨by decide, rfl, agree_nested3,
    (C4_maxdepth_independence 1 (by decide) 8 emptyEnv _ rfl _ _ agree_nested3).1⟩

/-- C2 counterexample: `sortValues` does order string keys `a` before `b`,
but `dump` never calls it: a mapping presented with key `b` first renders
`b` before `a`. -/
theorem C2_map_not_sorted :
    sortValues [.stringV "string" "b", .stringV "string" "a"] =
      [.stringV "string" "a", .stringV "string" "b"] ∧
    FdumpStr 40 defaultConfig emptyEnv [some mapBA] =
      some "(map[string]int) \x7b\n (string) \"b\": (int) 2,\n (string) \"a\": (int) 1\n\x7d\n" ∧
    ("(map[string]int) \x7b\n (string) \"b\": (int) 2,\n (string) \"a\": (int) 1\n\x7d\n" : String) ≠
      "(map[string]int) \x7b\n (string) \"a\": (int) 1,\n (string) \"b\": (int) 2\n\x7d\n" :=
  ⟨rfl, rfl, by decide⟩

/-- C6 counterexample: two presentations of the same mapping (the same
entries, permuted iteration order) render to different bytes, so the output
is not a function of the abstract (value, configuration) pair alone. -/
theorem C6_perm_not_equal :
    (mapEntries mapBA).Perm (mapEntries mapAB) ∧
    FdumpStr 40 defaultConfig emptyEnv [some mapBA] ≠
      FdumpStr 40 defaultConfig emptyEnv [some mapAB] :=
  ⟨List.Perm.swap _ _ _, by decide⟩

/-- Witness for the repeat-render theorem on a boolean root value. -/
theorem C6_repeat_render_witness :
    FdumpStr 2 defaultConfig emptyEnv [some (.boolV "bool" true), some (.boolV "bool" true)] =
      some ("(bool) true\n" ++ "(bool) true\n") :=
  C6_repeat_render 2 defaultConfig emptyEnv _ _ rfl

/-- C7 counterexample: the method guard is consulted for an integer-kind
primitive: a `Stringer` on an int-kind type takes over its rendering, and
only `DisableMethods` restores the plain numeric rendering. -/
theorem C7_stringer_on_primitive :
    FdumpStr 4 defaultConfig flagEnv [some (.intV "spew_test.Flag" 1)] =
      some "(spew_test.Flag) flagTwo\n" ∧
    FdumpStr 4 { defaultConfig with DisableMethods := true } flagEnv
        [some (.intV "spew_test.Flag" 1)] =
      some "(spew_test.Flag) 1\n" ∧
    ("(spew_test.Flag) flagTwo\n" : String) ≠ "(spew_test.Flag) 1\n" :=
  ⟨rfl, rfl, by decide⟩

/-- C7: the guard runs for primitives too (an int-kind `Stringer` takes
over the rendering), and when `DisableMethods` is set the guard is skipped
for every value: the dump never reads the method table at all. -/
theorem C7_method_gate :
    FdumpStr 4 defaultConfig flagEnv [some (.intV "spew_test.Flag" 1)] =
      some "(spew_test.Flag) flagTwo\n" ∧
    ∀ (cs : ConfigState), cs.DisableMethods = true →
      ∀ (h : List (Nat × GoVal)) (m1 m2 : List (String × TypeMeths)) (f : Nat)
        (st : DumpState) (t : DTask),
        dumpT f ⟨h, m1⟩ cs st t = dumpT f ⟨h, m2⟩ cs st t :=
  ⟨rfl, fun cs hcs h m1 m2 => dumpT_disableMethods cs hcs h m1 m2⟩

/-- Witness for the method-gate theorem: with `DisableMethods` set the
`spew_test.Flag` method table is irrelevant. -/
theorem C7_method_gate_witness :
    ({ defaultConfig with DisableMethods := true } : ConfigState).DisableMethods = true ∧
    dumpT 4 ⟨[], flagEnv.meths⟩ { defaultConfig with DisableMethods := true } (initSt "")
        (.one (.intV "spew_test.Flag" 1)) =
      dumpT 4 ⟨[], []⟩ { defaultConfig with DisableMethods := true } (initSt "")
        (.one (.intV "spew_test.Flag" 1)) :=
  ⟨rfl, C7_method_gate.2 _ rfl [] flagEnv.meths [] 4 (initSt "") _⟩

/-- C8: a nil typed reference renders as `(**int8)()(<nil>)`: the indirect
count is incremented before the nil check, so one extra `*` joins the
still-undereferenced type name, and the empty pointer chain prints as
`()` - not the `(*int8)(<nil>)` form the claim (and dump_test) states. -/
theorem C8_nil_pointer_render :
    FdumpStr 8 defaultConfig emptyEnv [some (.ptrNilV "*int8")] =
      some "(**int8)()(<nil>)\n" ∧
    ("(**int8)()(<nil>)\n" : String) ≠ "(*int8)(<nil>)\n" :=
  ⟨rfl, by decide⟩

/-- C9: entries recorded at or below the current depth are pruned on
re-entry of `dumpPtr`, so an address already in the identity map at the
same depth 1 is re-expanded in full - the second sibling prints the chain,
address and dereferenced value, not `<already shown>`; concretely both
fields of a two-pointer struct render the full expansion. -/
theorem C9_sibling_reexpansion (k : Nat) (stO : String) (addr : Nat) (n : Int) :
    ptrsPrune [(addr, 1)] 1 = [] ∧
    dumpT (k + 2) (intHeapEnv addr n) defaultConfig
        ⟨stO, 1, [(addr, 1)], false, true⟩ (.one (.ptrV "*int" addr)) =
      some ⟨stO ++ "(*int)" ++ ("(" ++ printHexPtr addr ++ ")") ++ "(" ++ toString n
        ++ ")", 1, [(addr, 1)], false, false⟩ ∧
    FdumpStr 12 defaultConfig (intHeapEnv 1 42) [some (twoPtrStruct 1)] =
      some "(spew_test.twoPtr) \x7b\n a: (*int)(0x1)(42),\n b: (*int)(0x1)(42)\n\x7d\n" :=
  ⟨rfl, ptrFieldDump k stO [(addr, 1)] addr n rfl, rfl⟩

/-- C10: each root value of `Fdump` is rendered followed by one newline; a
nil argument writes the interface and nil tokens and a newline directly,
without entering the walker (the nil branch contains no `dumpT` call);
and a nil interface inside a compound renders only its `(interface \x7b\x7d) `
type header with no nil token at all, because `dump`'s `Interface` case
does nothing (dump.go lines 205-206). -/
theorem C10_fdump_loop :
    (∀ (f : Nat) (cs : ConfigState) (env : Env) (rest : List (Option GoVal)) (out : String),
      fdumpGo f cs env (none :: rest) out =
        fdumpGo f cs env rest (out ++ "(interface \x7b\x7d)" ++ "<nil>" ++ "\n")) ∧
    (∀ (f : Nat) (cs : ConfigState) (env : Env) (v : GoVal) (rest : List (Option GoVal))
      (out : String),
      fdumpGo f cs env (some v :: rest) out =
        (dumpT f env cs (initSt out) (.one v)).bind fun st =>
          fdumpGo f cs env rest (st.out ++ "\n")) ∧
    FdumpStr 1 defaultConfig emptyEnv [none] = some "(interface \x7b\x7d)<nil>\n" ∧
    FdumpStr 8 defaultConfig emptyEnv
        [some (.structV "spew_test.s" [("f", .ifaceNilV "interface \x7b\x7d")])] =
      some "(spew_test.s) \x7b\n f: (interface \x7b\x7d) \n\x7d\n" :=
  ⟨fun _ _ _ _ _ => rfl, fun _ _ _ _ _ _ => rfl, rfl, rfl⟩

/-- C10 counterexample: the nil-argument tokens are written back to back
(`(interface \x7b\x7d)<nil>`), not the spaced `(interface \x7b\x7d) <nil>`
form the claim quotes. -/
theorem C10_no_space :
    FdumpStr 1 defaultConfig emptyEnv [none] = some "(interface \x7b\x7d)<nil>\n" ∧
    ("(interface \x7b\x7d)<nil>\n" : String) ≠ "(interface \x7b\x7d) <nil>\n" :=
  ⟨rfl, by decide⟩
